import Mathlib

/-!
Verification development for `src/excel_extractor.py` of nuin/excellent_extractor.

The Python module is shallowly embedded: pure helpers become Lean functions,
the filesystem and the external collaborators (openpyxl/xlrd loaders, the
pytesseract OCR call, the whoosh index library) are modelled as explicit data
and oracle parameters, and a Python exception that escapes a function is an
`Except.error`.  Strings are Lean `String`s; the Python string helpers
(`join`, `endswith`, `startswith`, substring containment for wildcard terms)
are re-implemented structurally so that every definition evaluates.
-/

namespace ExcellentExtractor

/-- Python `sep.join(parts)`: the empty list gives `""`, otherwise the parts
interleaved with `sep`. -/
def pyJoin (sep : String) : List String → String
  | [] => ""
  | [s] => s
  | s :: t :: rest => s ++ sep ++ pyJoin sep (t :: rest)

/-- Spec-side rendering of "joined by `sep`": first part, then a left fold
appending separator and next part.  Used to state the spec's wording
independently of `pyJoin`. -/
def joinWithSpec (sep : String) : List String → String
  | [] => ""
  | s :: rest => rest.foldl (fun acc t => acc ++ sep ++ t) s

/-- Python `s.startswith(pre)` on character lists: `needle` leads `hay`. -/
def leadsWith : List Char → List Char → Bool
  | [], _ => true
  | _ :: _, [] => false
  | a :: as, b :: bs => a == b && leadsWith as bs

/-- Python `s.endswith(suff)`. -/
def strEndsWith (s suff : String) : Bool :=
  leadsWith suff.data.reverse s.data.reverse

/-- Python `s.startswith(pre)`. -/
def strStartsWith (s pre : String) : Bool :=
  leadsWith pre.data s.data

/-- `needle` occurs contiguously in the character list. -/
def occursIn (needle : List Char) : List Char → Bool
  | [] => needle.isEmpty
  | b :: bs => leadsWith needle (b :: bs) || occursIn needle bs

/-- Substring containment on strings: the documents matched by a whoosh
`*sub*` wildcard term query on a stored ID field are those whose stored term
contains `sub`. -/
def strContains (hay sub : String) : Bool := occursIn sub.data hay.data

/-- A cell as the Python code sees it: `none` models a `None` cell, `some v`
models a cell whose `str(...)` rendering is `v`. -/
abbrev Cell := Option String

/-- An openpyxl / xlrd worksheet as used by the extractor: the row grid in
row-major order, the `parent._read_only` flag of the containing workbook, and
the embedded images, each a (cell coordinate, bitmap id) pair.  OCR is an
oracle from bitmap ids to recognized text. -/
structure Sheet where
  rows : List (List Cell)
  parentReadOnly : Bool
  images : List (String × Nat)
deriving DecidableEq

/-- The dataclass `SheetContent` (src lines 20–24). -/
structure SheetContent where
  name : String
  cell_text : String
  images : List (String × String)
deriving DecidableEq

/-- The dataclass `WorkbookContent` (src lines 27–31). -/
structure WorkbookContent where
  filename : String
  relative_path : String
  sheets : List SheetContent
deriving DecidableEq

/-- `ExcelExtractor.extract_text_from_sheet` (src lines 47–55): each row is
tab-joined (a `None` cell renders as the empty string), rows newline-joined.
The xlsx branch iterates `iter_rows(values_only=True)`, the xls branch
iterates `sheet.row(row)` over `sheet.nrows`; over the grid model both
traversals render the same row-major grid. -/
def extract_text_from_sheet (sheet : Sheet) (is_xlsx : Bool) : String :=
  if is_xlsx then
    pyJoin "\n" (sheet.rows.map fun row => pyJoin "\t" (row.map fun cell => cell.getD ""))
  else
    pyJoin "\n" (sheet.rows.map fun row => pyJoin "\t" (row.map fun cell => cell.getD ""))

/-- `ExcelExtractor.process_sheet` (src lines 60–75).  `ocr` is the
pytesseract oracle; `imgFailAt = some k` models an exception raised inside
the image loop after `k` images were already appended (the surrounding `try`
keeps the appends made so far and logs a warning).  Images are only loaded
for an xlsx sheet whose parent workbook is not in read-only mode. -/
def process_sheet (ocr : Nat → String) (imgFailAt : Option Nat)
    (sheet : Sheet) (sheet_name : String) (is_xlsx : Bool) : SheetContent :=
  let cell_text := extract_text_from_sheet sheet is_xlsx
  let images :=
    if is_xlsx && !sheet.parentReadOnly then
      let loaded := sheet.images.map fun ci => (ci.1, ocr ci.2)
      match imgFailAt with
      | none => loaded
      | some k => loaded.take k
    else []
  ⟨sheet_name, cell_text, images⟩

/-- Per-sheet raw data stored inside a spreadsheet file on disk. -/
structure SheetData where
  name : String
  rows : List (List Cell)
  images : List (String × Nat)
deriving DecidableEq

/-- A file as the loaders see it.  The Booleans model whether each loading
call would succeed on this file: `openpyxl.load_workbook(..., read_only=True)`,
`openpyxl.load_workbook(...)` (normal mode), and `xlrd.open_workbook`. -/
structure ExcelFile where
  filename : String
  relative_path : String
  sheets : List SheetData
  readOnlyOk : Bool
  normalOk : Bool
  xlsOpenOk : Bool
deriving DecidableEq

/-- The worksheet obtained from a workbook loaded with read-only flag `ro`. -/
def loadSheet (ro : Bool) (sd : SheetData) : Sheet := ⟨sd.rows, ro, sd.images⟩

/-- An uncaught Python exception escaping a method. -/
abbrev PyError := String

/-- The exception message of the slip in `process_workbook`: on the fallback
(normal-mode) load path the local `is_xlsx` was never assigned, so the later
`if is_xlsx:` raises. -/
def unboundLocalIsXlsx : PyError :=
  "UnboundLocalError: local variable referenced before assignment"

/-- `ExcelExtractor.process_workbook` (src lines 77–123).  An `.xlsx` file is
first loaded read-only; if that load raises, a normal-mode load is tried, but
that path then raises `UnboundLocalError` at `if is_xlsx:` (src line 105)
because `is_xlsx` is assigned only inside the first `try`.  An `.xls` file is
opened once with xlrd.  A load failure with no further fallback logs and
returns `None`; other extensions raise `ValueError`, which the same handler
catches and turns into `None`.  The per-sheet `try` blocks (src 107–121)
never fire in the model because `process_sheet` is total here. -/
def process_workbook (ocr : Nat → String) (imgFail : String → Option Nat)
    (file : ExcelFile) : Except PyError (Option WorkbookContent) :=
  if strEndsWith file.filename ".xlsx" then
    if file.readOnlyOk then
      Except.ok (some ⟨file.filename, file.relative_path,
        file.sheets.map fun sd =>
          process_sheet ocr (imgFail sd.name) (loadSheet true sd) sd.name true⟩)
    else if file.normalOk then
      Except.error unboundLocalIsXlsx
    else
      Except.ok none
  else if strEndsWith file.filename ".xls" then
    if file.xlsOpenOk then
      Except.ok (some ⟨file.filename, file.relative_path,
        file.sheets.map fun sd =>
          process_sheet ocr (imgFail sd.name) (loadSheet false sd) sd.name false⟩)
    else
      Except.ok none
  else
    Except.ok none

/-- The file filter of the directory walk (src lines 130–133 and 236): a
recognized spreadsheet extension and not an editor lock file. -/
def qualifies (name : String) : Bool :=
  (strEndsWith name ".xlsx" || strEndsWith name ".xls") && !(strStartsWith name "~$")

/-- `ExcelExtractor.process_directory` (src lines 125–146): process each
qualifying file in walk order; a `None` from `process_workbook` is skipped,
but an uncaught exception propagates, because the call at src line 141 has no
surrounding `try`. -/
def process_directory (ocr : Nat → String) (imgFail : String → Option Nat) :
    List ExcelFile → Except PyError (List WorkbookContent)
  | [] => Except.ok []
  | f :: fs =>
    if qualifies f.filename then
      match process_workbook ocr imgFail f with
      | Except.error e => Except.error e
      | Except.ok wc =>
        match process_directory ocr imgFail fs with
        | Except.error e => Except.error e
        | Except.ok rest =>
          Except.ok (match wc with | some w => w :: rest | none => rest)
    else
      process_directory ocr imgFail fs

/-- One stored document of the whoosh index: the five stored fields of the
schema (src lines 38–44). -/
structure Document where
  filename : String
  relative_path : String
  sheet_name : String
  content : String
  image_content : String
deriving DecidableEq

/-- One `writer.add_document(...)` call of `index_content` (src lines
156–167): the stored document built from a workbook and one of its sheets. -/
def build_document (wb : WorkbookContent) (sheet : SheetContent) : Document :=
  ⟨wb.filename, wb.relative_path, sheet.name, sheet.cell_text,
    pyJoin "\n" (sheet.images.map Prod.snd)⟩

/-- All documents added by one `index_content` run, in writer order (the
nested loop over workbooks and their sheets, src lines 157–168). -/
def docsOf (workbooks : List WorkbookContent) : List Document :=
  (workbooks.map fun wb => wb.sheets.map (build_document wb)).flatten

/-- Where an execution of `index_content` stops, if anywhere:
`beforeCreate` fails before `index.create_in` wrote the fresh empty
generation, `beforeCommit` fails after `create_in` but before
`writer.commit`, `noFail` runs to completion. -/
inductive IndexFail
  | beforeCreate
  | beforeCommit
  | noFail
deriving DecidableEq

/-- `ExcelExtractor.index_content` (src lines 148–169) as a transition on the
stored-document set of the index directory.  `index.create_in` (src line 151)
clobbers any existing index with a fresh empty generation before anything is
added; the documents are buffered inside the writer and `writer.commit` (src
line 169) publishes all of them atomically, per the whoosh index contract. -/
def index_content_run (prior : List Document) (workbooks : List WorkbookContent) :
    IndexFail → List Document
  | IndexFail.beforeCreate => prior
  | IndexFail.beforeCommit => []
  | IndexFail.noFail => docsOf workbooks

/-- One result dictionary of `ExcelExtractor.search` (src lines 176–184). -/
structure SearchResult where
  filename : String
  relative_path : String
  sheet_name : String
  score : Int
  highlight : String
deriving DecidableEq

/-- One result dictionary of `get_file_location` / `search_by_filename` /
`search_by_gene_symbol`: a filename with its path relative to the content
root. -/
structure FileLocation where
  filename : String
  relative_path : String
deriving DecidableEq

/-- Internal whoosh document ids, modelled as positions in writer order. -/
def withIds : List Document → List (Nat × Document) :=
  go 0
where
  go (i : Nat) : List Document → List (Nat × Document)
    | [] => []
    | d :: ds => (i, d) :: go (i + 1) ds

/-- Whoosh result order: score descending, ties by ascending internal
document id. -/
def rankRel (score : Document → Int) (a b : Nat × Document) : Prop :=
  score b.2 < score a.2 ∨ (score a.2 = score b.2 ∧ a.1 ≤ b.1)

instance (score : Document → Int) : DecidableRel (rankRel score) := fun a b => by
  unfold rankRel; infer_instance

instance (score : Document → Int) : IsTotal (Nat × Document) (rankRel score) where
  total a b := by
    rcases lt_trichotomy (score a.2) (score b.2) with h | h | h
    · exact Or.inr (Or.inl h)
    · rcases Nat.le_total a.1 b.1 with hle | hle
      · exact Or.inl (Or.inr ⟨h, hle⟩)
      · exact Or.inr (Or.inr ⟨h.symm, hle⟩)
    · exact Or.inl (Or.inl h)

instance (score : Document → Int) : IsTrans (Nat × Document) (rankRel score) where
  trans a b c hab hbc := by
    rcases hab with h1 | ⟨he1, hi1⟩
    · rcases hbc with h2 | ⟨he2, hi2⟩
      · exact Or.inl (lt_trans h2 h1)
      · exact Or.inl (he2 ▸ h1)
    · rcases hbc with h2 | ⟨he2, hi2⟩
      · exact Or.inl (he1 ▸ h2)
      · exact Or.inr ⟨he1.trans he2, le_trans hi1 hi2⟩

/-- `searcher.search(query, limit=limit)` over the committed documents of the
index: all matching documents ranked by descending score with ties by
ascending document id, truncated by the limit when one is given.  The query
semantics is abstracted to the `matchQ` predicate and the engine's scoring
function, both oracles of the model. -/
def whoosh_results (score : Document → Int) (matchQ : Document → Bool)
    (docs : List Document) : Option Nat → List (Nat × Document)
  | none => List.insertionSort (rankRel score)
      ((withIds docs).filter fun x => matchQ x.2)
  | some k => (List.insertionSort (rankRel score)
      ((withIds docs).filter fun x => matchQ x.2)).take k

/-- `ExcelExtractor.search` (src lines 171–185): parse the query against the
`content` field (abstracted to `matchQ`), run the search with the given
limit, and build one result dictionary per hit, with the engine's score and
highlight oracles. -/
def search (score : Document → Int) (matchQ : Document → Bool)
    (highlight : Document → String) (docs : List Document)
    (limit : Option Nat) : List SearchResult :=
  (whoosh_results score matchQ docs limit).map fun x =>
    ⟨x.2.filename, x.2.relative_path, x.2.sheet_name, score x.2, highlight x.2⟩

/-- `ExcelExtractor.get_file_location` (src lines 187–197): an exact term
query on the `filename` field with `limit=1`; the first stored document in
index scan order whose filename equals the query, or `None`. -/
def get_file_location (docs : List Document) (filename : String) : Option FileLocation :=
  (docs.find? fun d => d.filename == filename).map fun d =>
    ⟨d.filename, d.relative_path⟩

/-- `ExcelExtractor.search_by_filename` (src lines 215–226): the wildcard
query `*filename*` parsed against the `filename` field only, run through
`searcher.search(query)` with no limit argument — whoosh's default result
limit of 10 — so at most the 10 top-ranked matching documents come back,
ordered by the engine's score for the expanded wildcard terms (an oracle of
the model) with ties by ascending document id, projected to unscored file
locations. -/
def search_by_filename (score : Document → Int) (docs : List Document)
    (filename : String) : List FileLocation :=
  (whoosh_results score (fun d => strContains d.filename filename) docs (some 10)).map
    fun x => ⟨x.2.filename, x.2.relative_path⟩

/-- Modelled from the spec (§4.4) for comparison with `search_by_filename`:
"returns all documents whose `filename` or `relativePath` contains the given
substring, unscored, order = index scan order". -/
def search_by_filename_specside (docs : List Document) (filename : String) :
    List FileLocation :=
  (docs.filter fun d =>
      strContains d.filename filename || strContains d.relative_path filename).map fun d =>
    ⟨d.filename, d.relative_path⟩

/-- The directory tree under the extractor's content root: every directory
and every file as component paths relative to the root. -/
structure DirTreeModel where
  dirs : List (List String)
  files : List (List String)
deriving DecidableEq

/-- The base name of a component path. -/
def lastComponent (p : List String) : String := p.getLast?.getD ""

/-- `os.path.relpath(os.path.join(root, ...), root)` of a component path. -/
def relPathString (p : List String) : String := pyJoin "/" p

/-- `ExcelExtractor.search_by_gene_symbol` (src lines 228–242): if the
subdirectory named after the key does not exist under the content root, the
empty list; otherwise every file of the walk beneath it whose name has a
spreadsheet extension and is not an editor lock file, with its path relative
to the content root. -/
def search_by_gene_symbol (fs : DirTreeModel) (gene_symbol : String) : List FileLocation :=
  if fs.dirs.contains [gene_symbol] then
    ((fs.files.filter fun p =>
        (p.head? == some gene_symbol) && qualifies (lastComponent p)).map fun p =>
      (⟨lastComponent p, relPathString p⟩ : FileLocation))
  else []

/-! ## Helper lemmas -/

lemma foldl_append_sep (sep : String) (l : List String) (x y : String) :
    l.foldl (fun acc t => acc ++ sep ++ t) (x ++ y)
      = x ++ l.foldl (fun acc t => acc ++ sep ++ t) y := by
  induction l generalizing y with
  | nil => rfl
  | cons c cs ih =>
    simp only [List.foldl_cons]
    have h : x ++ y ++ sep ++ c = x ++ (y ++ sep ++ c) := by
      simp [String.append_assoc]
    rw [h, ih]

lemma pyJoin_eq_joinWithSpec (sep : String) (l : List String) :
    pyJoin sep l = joinWithSpec sep l := by
  induction l with
  | nil => rfl
  | cons s rest ih =>
    cases rest with
    | nil => rfl
    | cons t ts =>
      have hts : joinWithSpec sep (t :: ts)
          = ts.foldl (fun acc u => acc ++ sep ++ u) t := rfl
      have hsts : joinWithSpec sep (s :: t :: ts)
          = (t :: ts).foldl (fun acc u => acc ++ sep ++ u) s := rfl
      simp only [pyJoin, ih, hts, hsts, List.foldl_cons]
      rw [foldl_append_sep sep ts (s ++ sep) t]

/-- Spec's words for `cellText` (§3, §4.1): each row rendered as tab-joined
cell values with a missing cell as the empty string, rows newline-joined,
preserving row-major order. -/
def cellTextSpec (rows : List (List Cell)) : String :=
  joinWithSpec "\n" (rows.map fun row => joinWithSpec "\t" (row.map fun c => c.getD ""))

/-- Spec's words for `imageContent` (§4.2): each image's recognized text,
concatenated with a newline separator. -/
def imageContentSpec (images : List (String × String)) : String :=
  joinWithSpec "\n" (images.map Prod.snd)

/-! ## Claim C5 -/

/-- Claim C5: for every sheet (in either format branch),
`extract_text_from_sheet` renders the cell grid row-major — every row becomes
its cell values joined by tabs with missing cells as the empty string, and
the rows are joined by newlines, in the original row and column order. -/
theorem extract_text_from_sheet_renders_row_major (sheet : Sheet) (is_xlsx : Bool) :
    extract_text_from_sheet sheet is_xlsx = cellTextSpec sheet.rows := by
  cases is_xlsx <;>
    simp [extract_text_from_sheet, cellTextSpec, pyJoin_eq_joinWithSpec]

/-! ## Claim C10 -/

/-- Claim C10: for every sheet content, the indexed document's
`image_content` field is the sheet's recognized image texts joined by a
newline separator — the empty string when the sheet has no images — and the
transform touches no other field: `filename` and `relative_path` come from
the workbook and `sheet_name` and `content` from the sheet, unchanged. -/
theorem build_document_image_content_join (wb : WorkbookContent)
    (sheet : SheetContent) (n t : String) :
    (build_document wb sheet).image_content = imageContentSpec sheet.images
    ∧ (build_document wb ⟨n, t, []⟩).image_content = ""
    ∧ (build_document wb sheet).filename = wb.filename
    ∧ (build_document wb sheet).relative_path = wb.relative_path
    ∧ (build_document wb sheet).sheet_name = sheet.name
    ∧ (build_document wb sheet).content = sheet.cell_text := by
  refine ⟨?_, rfl, rfl, rfl, rfl, rfl⟩
  simp only [build_document, imageContentSpec, pyJoin_eq_joinWithSpec]

/-! ## Claim C2 -/

/-- Claim C2: whenever `process_workbook` succeeds through its primary
read-only load path on an `.xlsx` file, or on any `.xls` file,
`process_sheet` never attempts image extraction or OCR, so every sheet of the
resulting workbook content has an empty image list and the indexed document
built from it has an empty `image_content` field. -/
theorem successful_readonly_or_xls_load_yields_no_images
    (ocr : Nat → String) (imgFail : String → Option Nat) (file : ExcelFile)
    (wc : WorkbookContent) (sc : SheetContent)
    (hpath : (strEndsWith file.filename ".xlsx" && file.readOnlyOk) = true
      ∨ strEndsWith file.filename ".xls" = true)
    (hload : process_workbook ocr imgFail file = Except.ok (some wc))
    (hmem : sc ∈ wc.sheets) :
    sc.images = [] ∧ (build_document wc sc).image_content = "" := by
  have himg : sc.images = [] := by
    by_cases h1 : strEndsWith file.filename ".xlsx"
    · by_cases h2 : file.readOnlyOk
      · simp only [process_workbook, h1, h2, if_true, Except.ok.injEq,
          Option.some.injEq] at hload
        subst hload
        simp only [List.mem_map] at hmem
        obtain ⟨sd, _, rfl⟩ := hmem
        simp [process_sheet, loadSheet]
      · by_cases h3 : file.normalOk <;>
          simp [process_workbook, h1, h2, h3] at hload
    · by_cases h4 : strEndsWith file.filename ".xls"
      · by_cases h5 : file.xlsOpenOk
        · simp only [process_workbook, h1, h4, h5, if_true, if_false,
            Bool.false_eq_true, Except.ok.injEq, Option.some.injEq] at hload
          subst hload
          simp only [List.mem_map] at hmem
          obtain ⟨sd, _, rfl⟩ := hmem
          simp [process_sheet, loadSheet]
        · simp [process_workbook, h1, h4, h5] at hload
      · simp [process_workbook, h1, h4] at hload
  exact ⟨himg, by simp [build_document, himg, pyJoin]⟩

/-- Witness for claim C2 at a concrete `.xlsx` file carrying one embedded
image, loaded through the read-only path. -/
theorem successful_readonly_or_xls_load_yields_no_images_witness :
    (⟨"Sheet1", "x\t", []⟩ : SheetContent).images = []
    ∧ (build_document ⟨"a.xlsx", "a.xlsx", [⟨"Sheet1", "x\t", []⟩]⟩
        ⟨"Sheet1", "x\t", []⟩).image_content = "" :=
  successful_readonly_or_xls_load_yields_no_images
    (fun _ => "ocr text") (fun _ => none)
    ⟨"a.xlsx", "a.xlsx", [⟨"Sheet1", [[some "x", none]], [("A1", 7)]⟩],
      true, true, true⟩
    ⟨"a.xlsx", "a.xlsx", [⟨"Sheet1", "x\t", []⟩]⟩
    ⟨"Sheet1", "x\t", []⟩
    (Or.inl (by decide)) rfl (by decide)

/-! ## Claim C3 -/

/-- Claim C3 (code bug): on an `.xlsx` file whose read-only load fails while
the normal-mode fallback load succeeds, `process_workbook` does not produce
the workbook's content — it raises `UnboundLocalError`, because `is_xlsx` is
assigned only in the first `try` block and `if is_xlsx:` (src line 105) then
reads it unassigned — and since `process_directory` has no try/except around
the call, the exception aborts the whole directory walk instead of
continuing to the remaining files.  The same directory without the
fallback-path file is processed fine. -/
theorem fallback_load_raises_unbound_local_and_aborts_walk :
    process_workbook (fun _ => "") (fun _ => none)
        ⟨"a.xlsx", "a.xlsx", [⟨"S", [[some "data"]], []⟩], false, true, true⟩
      = Except.error unboundLocalIsXlsx
    ∧ process_directory (fun _ => "") (fun _ => none)
        [⟨"a.xlsx", "a.xlsx", [⟨"S", [[some "data"]], []⟩], false, true, true⟩,
         ⟨"b.xlsx", "b.xlsx", [⟨"S", [[some "hello"]], []⟩], true, true, true⟩]
      = Except.error unboundLocalIsXlsx
    ∧ process_directory (fun _ => "") (fun _ => none)
        [⟨"b.xlsx", "b.xlsx", [⟨"S", [[some "hello"]], []⟩], true, true, true⟩]
      = Except.ok [⟨"b.xlsx", "b.xlsx", [⟨"S", "hello", []⟩]⟩] :=
  ⟨rfl, rfl, rfl⟩

/-! ## Claim C4 -/

/-- Claim C4 is false on the code: an `index_content` run that fails after
`index.create_in` but before `writer.commit` leaves the index empty — the
prior generation (here one stored document) is already destroyed and the new
generation (here one document as well) never became visible, so the directory
holds neither the new generation in its entirety nor the prior generation
unchanged. -/
theorem midrun_failure_loses_prior_generation :
    ¬ (index_content_run [⟨"old.xlsx", "old.xlsx", "S", "c", ""⟩]
          [⟨"a.xlsx", "a.xlsx", [⟨"S", "x", []⟩]⟩] IndexFail.beforeCommit
        = docsOf [⟨"a.xlsx", "a.xlsx", [⟨"S", "x", []⟩]⟩]
      ∨ index_content_run [⟨"old.xlsx", "old.xlsx", "S", "c", ""⟩]
          [⟨"a.xlsx", "a.xlsx", [⟨"S", "x", []⟩]⟩] IndexFail.beforeCommit
        = [⟨"old.xlsx", "old.xlsx", "S", "c", ""⟩]) := by
  decide

/-- Claim C4 as amended: a run of `index_content` ends in one of exactly
three stored-document states — the new generation in its entirety, the prior
generation unchanged (only when the run fails before `index.create_in` wipes
the directory), or the empty index (a failure between the wipe and the
atomic commit); no execution leaves a partially committed subset of the new
documents. -/
theorem index_content_all_or_empty (prior : List Document)
    (workbooks : List WorkbookContent) (fail : IndexFail) :
    index_content_run prior workbooks fail = docsOf workbooks
    ∨ index_content_run prior workbooks fail = prior
    ∨ index_content_run prior workbooks fail = [] := by
  cases fail
  · exact Or.inr (Or.inl rfl)
  · exact Or.inr (Or.inr rfl)
  · exact Or.inl rfl

/-! ## Claim C9 -/

/-- Claim C9: a completed `index_content` run replaces the stored documents
wholesale — its outcome is `docsOf workbooks` whatever generation was there
before — so rebuilding from the same workbooks is idempotent: a second run
on top of the first leaves exactly the documents of the first. -/
theorem index_content_rebuild_idempotent (prior : List Document)
    (workbooks : List WorkbookContent) :
    index_content_run (index_content_run prior workbooks IndexFail.noFail)
        workbooks IndexFail.noFail
      = index_content_run prior workbooks IndexFail.noFail
    ∧ index_content_run prior workbooks IndexFail.noFail = docsOf workbooks :=
  ⟨rfl, rfl⟩

/-! ## Claim C7 -/

lemma find?_first_split {α : Type} (p : α → Bool) (l : List α) (a : α)
    (h : l.find? p = some a) :
    ∃ l₁ l₂, l = l₁ ++ a :: l₂ ∧ p a = true ∧ ∀ x ∈ l₁, p x = false := by
  induction l with
  | nil => simp at h
  | cons b bs ih =>
    by_cases hb : p b
    · rw [List.find?_cons_of_pos _ hb] at h
      obtain rfl : b = a := by simpa using h
      exact ⟨[], bs, rfl, hb, by simp⟩
    · rw [List.find?_cons_of_neg _ hb] at h
      obtain ⟨l₁, l₂, rfl, hpa, hall⟩ := ih h
      refine ⟨b :: l₁, l₂, rfl, hpa, ?_⟩
      intro x hx
      rcases List.mem_cons.mp hx with rfl | hx'
      · simpa using hb
      · exact hall x hx'

/-- Claim C7: `get_file_location` returns `none` — not an error — exactly
when no stored document's `filename` equals the query, and otherwise returns
the filename and relative path of the first exact match in index scan order:
the matched document is preceded only by non-matching ones. -/
theorem get_file_location_first_exact_match (docs : List Document) (f : String) :
    (get_file_location docs f = none ↔ ∀ d ∈ docs, d.filename ≠ f)
    ∧ ∀ loc, get_file_location docs f = some loc →
        ∃ l₁ d l₂, docs = l₁ ++ d :: l₂ ∧ d.filename = f
          ∧ (∀ x ∈ l₁, x.filename ≠ f)
          ∧ loc = ⟨d.filename, d.relative_path⟩ := by
  constructor
  · simp [get_file_location, List.find?_eq_none]
  · intro loc hloc
    simp only [get_file_location, Option.map_eq_some'] at hloc
    obtain ⟨d, hfind, rfl⟩ := hloc
    obtain ⟨l₁, l₂, rfl, hpa, hall⟩ := find?_first_split _ _ _ hfind
    exact ⟨l₁, d, l₂, rfl, by simpa using hpa,
      fun x hx => by simpa using hall x hx, rfl⟩

/-- Witness for claim C7: on a one-document index, a lookup for an absent
filename returns `none`. -/
theorem get_file_location_first_exact_match_witness :
    get_file_location [⟨"a.xlsx", "x/a.xlsx", "S", "", ""⟩] "zz.xlsx" = none :=
  (get_file_location_first_exact_match
      [⟨"a.xlsx", "x/a.xlsx", "S", "", ""⟩] "zz.xlsx").1.mpr (by decide)

/-! ## Claim C1 -/

lemma withIds_go_mem_snd {x : Nat × Document} {docs : List Document} :
    ∀ {i : Nat}, x ∈ withIds.go i docs → x.2 ∈ docs := by
  induction docs with
  | nil => intro i hx; simp [withIds.go] at hx
  | cons e es ih =>
    intro i hx
    rcases List.mem_cons.mp hx with rfl | hx'
    · exact List.mem_cons_self e es
    · exact List.mem_cons_of_mem e (ih hx')

lemma withIds_go_mem (d : Document) (docs : List Document) (hd : d ∈ docs) :
    ∀ i : Nat, ∃ j, (j, d) ∈ withIds.go i docs := by
  induction docs with
  | nil => exact absurd hd (List.not_mem_nil d)
  | cons e es ih =>
    intro i
    rcases List.mem_cons.mp hd with rfl | hd'
    · exact ⟨i, List.mem_cons_self _ _⟩
    · obtain ⟨j, hj⟩ := ih hd' (i + 1)
      exact ⟨j, List.mem_cons_of_mem _ hj⟩

lemma withIds_go_filter_length (p : Document → Bool) (docs : List Document) :
    ∀ i : Nat,
      ((withIds.go i docs).filter fun x => p x.2).length = (docs.filter p).length := by
  induction docs with
  | nil => intro i; rfl
  | cons e es ih =>
    intro i
    by_cases h : p e <;>
      simp [withIds.go, List.filter_cons, h, ih (i + 1)]

/-- Claim C1 is false on the code: `search_by_filename` parses its wildcard
query against the `filename` field only, so a document whose `relative_path`
contains the substring while its `filename` does not is not returned, though
the spec's description (`search_by_filename_specside`) includes it —
whatever the engine's scoring. -/
theorem search_by_filename_ignores_relative_path :
    search_by_filename (fun _ => 0)
        [⟨"results.xlsx", "BRCA1/results.xlsx", "S", "", ""⟩] "BRCA"
      = []
    ∧ search_by_filename_specside
        [⟨"results.xlsx", "BRCA1/results.xlsx", "S", "", ""⟩] "BRCA"
      = [⟨"results.xlsx", "BRCA1/results.xlsx"⟩] := by
  decide

/-- Claim C1 as amended: `search_by_filename` consults only the `filename`
field — every returned location comes from a stored document whose
`filename` contains the substring (`relative_path` is never matched) — and,
because the source calls `searcher.search(query)` without a limit, at most
10 results come back: they are a prefix of the full match list ranked by
descending engine score with ties by ascending document id, and whenever at
most 10 documents match, every document whose filename contains the
substring is returned. -/
theorem search_by_filename_matches_filename_substring
    (score : Document → Int) (docs : List Document) (sub : String) :
    (∀ loc ∈ search_by_filename score docs sub,
      ∃ d, d ∈ docs ∧ strContains d.filename sub = true
        ∧ loc = ⟨d.filename, d.relative_path⟩)
    ∧ (search_by_filename score docs sub).length ≤ 10
    ∧ search_by_filename score docs sub
        <+: ((whoosh_results score (fun d => strContains d.filename sub) docs none).map
          fun x => ⟨x.2.filename, x.2.relative_path⟩)
    ∧ List.Pairwise (rankRel score)
        (whoosh_results score (fun d => strContains d.filename sub) docs none)
    ∧ ((docs.filter fun d => strContains d.filename sub).length ≤ 10 →
        ∀ d ∈ docs, strContains d.filename sub = true →
          (⟨d.filename, d.relative_path⟩ : FileLocation)
            ∈ search_by_filename score docs sub) := by
  have hperm := List.perm_insertionSort (rankRel score)
    ((withIds docs).filter fun x => strContains x.2.filename sub)
  refine ⟨?_, ?_, ?_, ?_, ?_⟩
  · intro loc hloc
    simp only [search_by_filename, whoosh_results, List.mem_map] at hloc
    obtain ⟨x, hx, rfl⟩ := hloc
    have hx' : x ∈ (withIds docs).filter fun y => strContains y.2.filename sub :=
      hperm.mem_iff.mp (List.mem_of_mem_take hx)
    rcases List.mem_filter.mp hx' with ⟨hmem, hc⟩
    exact ⟨x.2, withIds_go_mem_snd hmem, hc, rfl⟩
  · simp only [search_by_filename, whoosh_results, List.length_map, List.length_take]
    exact min_le_left _ _
  · have h1 : List.take 10 (whoosh_results score
          (fun d => strContains d.filename sub) docs none)
        <+: whoosh_results score (fun d => strContains d.filename sub) docs none :=
      List.take_prefix 10 _
    exact h1.map _
  · exact List.sorted_insertionSort (rankRel score) _
  · intro h10 d hd hc
    obtain ⟨j, hj⟩ := withIds_go_mem d docs hd 0
    have hfil : (j, d) ∈ (withIds docs).filter fun x => strContains x.2.filename sub :=
      List.mem_filter.mpr ⟨hj, hc⟩
    have hrank : (j, d) ∈ whoosh_results score
        (fun x => strContains x.filename sub) docs none :=
      hperm.mem_iff.mpr hfil
    have hlen : (whoosh_results score
        (fun x => strContains x.filename sub) docs none).length ≤ 10 := by
      show (List.insertionSort (rankRel score)
          ((withIds docs).filter fun x => strContains x.2.filename sub)).length ≤ 10
      rw [hperm.length_eq]
      calc ((withIds.go 0 docs).filter fun x => strContains x.2.filename sub).length
          = (docs.filter fun d => strContains d.filename sub).length :=
            withIds_go_filter_length (fun d => strContains d.filename sub) docs 0
        _ ≤ 10 := h10
    show (⟨d.filename, d.relative_path⟩ : FileLocation)
      ∈ (List.take 10 (whoosh_results score
          (fun x => strContains x.filename sub) docs none)).map
        fun x => (⟨x.2.filename, x.2.relative_path⟩ : FileLocation)
    rw [List.take_of_length_le hlen]
    exact List.mem_map.mpr ⟨(j, d), hrank, rfl⟩

/-- Witness for the amended claim C1: on a concrete two-document index where
only one filename contains the substring, the matching document's location is
returned (the match count is within the default limit, so the completeness
part of the theorem applies). -/
theorem search_by_filename_matches_filename_substring_witness :
    (⟨"brca_data.xlsx", "g/brca_data.xlsx"⟩ : FileLocation)
      ∈ search_by_filename (fun _ => 0)
        [⟨"brca_data.xlsx", "g/brca_data.xlsx", "S", "", ""⟩,
         ⟨"tp53.xlsx", "g/tp53.xlsx", "S", "", ""⟩] "brca" :=
  (search_by_filename_matches_filename_substring (fun _ => 0)
      [⟨"brca_data.xlsx", "g/brca_data.xlsx", "S", "", ""⟩,
       ⟨"tp53.xlsx", "g/tp53.xlsx", "S", "", ""⟩] "brca").2.2.2.2
    (by decide)
    ⟨"brca_data.xlsx", "g/brca_data.xlsx", "S", "", ""⟩
    (by decide) (by decide)

/-! ## Claim C8 -/

/-- Claim C8: `search_by_gene_symbol` returns the empty list when no
subdirectory named after the key exists under the content root, and otherwise
returns exactly the files beneath that subdirectory that carry a spreadsheet
extension and are not editor lock files, each with its path relative to the
content root. -/
theorem search_by_gene_symbol_characterization (fs : DirTreeModel) (key : String) :
    (fs.dirs.contains [key] = false → search_by_gene_symbol fs key = [])
    ∧ (∀ loc, loc ∈ search_by_gene_symbol fs key ↔
        fs.dirs.contains [key] = true
        ∧ ∃ p, p ∈ fs.files ∧ p.head? = some key
            ∧ qualifies (lastComponent p) = true
            ∧ loc = ⟨lastComponent p, relPathString p⟩) := by
  constructor
  · intro h
    unfold search_by_gene_symbol
    rw [if_neg (by rw [h]; exact Bool.false_ne_true)]
  · intro loc
    constructor
    · intro hmem
      by_cases h : fs.dirs.contains [key] = true
      · refine ⟨h, ?_⟩
        unfold search_by_gene_symbol at hmem
        rw [if_pos h] at hmem
        simp only [List.mem_map, List.mem_filter] at hmem
        obtain ⟨p, ⟨hp, hq⟩, rfl⟩ := hmem
        rcases Bool.and_eq_true_iff.mp hq with ⟨hh, hqual⟩
        exact ⟨p, hp, by simpa using hh, hqual, rfl⟩
      · unfold search_by_gene_symbol at hmem
        rw [if_neg h] at hmem
        exact absurd hmem (List.not_mem_nil loc)
    · rintro ⟨h, p, hp, hh, hqual, rfl⟩
      unfold search_by_gene_symbol
      rw [if_pos h]
      simp only [List.mem_map, List.mem_filter]
      exact ⟨p, ⟨hp, Bool.and_eq_true_iff.mpr ⟨by simpa using hh, hqual⟩⟩, rfl⟩

/-- Witness for claim C8: the key `TP53` has no subdirectory in this concrete
tree, so the lookup fails softly with the empty list. -/
theorem search_by_gene_symbol_characterization_witness :
    search_by_gene_symbol
      ⟨[["BRCA1"]], [["BRCA1", "variants.xlsx"], ["BRCA1", "notes.txt"]]⟩ "TP53"
      = [] :=
  (search_by_gene_symbol_characterization
      ⟨[["BRCA1"]], [["BRCA1", "variants.xlsx"], ["BRCA1", "notes.txt"]]⟩
      "TP53").1 (by decide)

/-! ## Claim C6 -/

/-- Claim C6: for every query (abstracted to its match predicate, scoring and
highlighting oracles) and every positive limit `k`, `search` with `limit = k`
returns at most `k` results and they are a prefix of the unlimited result
list; the unlimited ranking is ordered by descending score with ties broken
by ascending document id, and with the limit omitted every matching document
is returned (the unlimited ranking is a permutation of all matches). -/
theorem search_limit_prefix_of_ranking (score : Document → Int)
    (matchQ : Document → Bool) (highlight : Document → String)
    (docs : List Document) (k : Nat) (hk : 0 < k) :
    (search score matchQ highlight docs (some k)).length ≤ k
    ∧ (search score matchQ highlight docs (some k))
        <+: search score matchQ highlight docs none
    ∧ List.Pairwise (rankRel score) (whoosh_results score matchQ docs none)
    ∧ (whoosh_results score matchQ docs none).Perm
        ((withIds docs).filter fun x => matchQ x.2) := by
  refine ⟨?_, ?_, ?_, ?_⟩
  · simp only [search, whoosh_results, List.length_map, List.length_take]
    exact min_le_left _ _
  · have h1 : List.take k (whoosh_results score matchQ docs none)
        <+: whoosh_results score matchQ docs none :=
      List.take_prefix k (whoosh_results score matchQ docs none)
    exact h1.map _
  · exact List.sorted_insertionSort (rankRel score) _
  · exact List.perm_insertionSort (rankRel score) _

/-- Witness for claim C6 at a concrete two-document index, a query matching
both documents with equal scores, and limit 1. -/
theorem search_limit_prefix_of_ranking_witness :
    (search (fun _ => 0) (fun _ => true) (fun _ => "")
        [⟨"a.xlsx", "a.xlsx", "S", "alpha", ""⟩,
         ⟨"b.xlsx", "b.xlsx", "T", "beta", ""⟩] (some 1)).length ≤ 1
    ∧ (search (fun _ => 0) (fun _ => true) (fun _ => "")
        [⟨"a.xlsx", "a.xlsx", "S", "alpha", ""⟩,
         ⟨"b.xlsx", "b.xlsx", "T", "beta", ""⟩] (some 1))
        <+: search (fun _ => 0) (fun _ => true) (fun _ => "")
          [⟨"a.xlsx", "a.xlsx", "S", "alpha", ""⟩,
           ⟨"b.xlsx", "b.xlsx", "T", "beta", ""⟩] none
    ∧ List.Pairwise (rankRel fun _ => 0)
        (whoosh_results (fun _ => 0) (fun _ => true)
          [⟨"a.xlsx", "a.xlsx", "S", "alpha", ""⟩,
           ⟨"b.xlsx", "b.xlsx", "T", "beta", ""⟩] none)
    ∧ (whoosh_results (fun _ => 0) (fun _ => true)
        [⟨"a.xlsx", "a.xlsx", "S", "alpha", ""⟩,
         ⟨"b.xlsx", "b.xlsx", "T", "beta", ""⟩] none).Perm
        ((withIds [⟨"a.xlsx", "a.xlsx", "S", "alpha", ""⟩,
           ⟨"b.xlsx", "b.xlsx", "T", "beta", ""⟩]).filter fun _ => true) :=
  search_limit_prefix_of_ranking (fun _ => 0) (fun _ => true) (fun _ => "")
    [⟨"a.xlsx", "a.xlsx", "S", "alpha", ""⟩,
     ⟨"b.xlsx", "b.xlsx", "T", "beta", ""⟩] 1 (by decide)

end ExcellentExtractor
